import Mathlib

/-! Shallow embedding of src/mobo.py (class MOBO): one round of multi-objective
Bayesian optimization.  Machine reals are modelled as rational numbers; numpy
arrays as lists of rationals (a column vector as a plain list); the external
collaborators (the GP fitting and prediction routines from the bayeso library,
the scipy local minimizer, the sampling provider of the base class, and the
seeded numpy RandomState) are fields of an `Ext` record of pure functions, so
the embedding is parametric in their behaviour.  Configuration strings that are
only forwarded verbatim into collaborator calls (prior mean, optimizer method
names, debug flag, which only affects logging) are folded into the collaborator
closures. -/

namespace Mobo

/-- Hyperparameter record returned by the surrogate-fitting collaborator (the
hyps dict of the source); the core only reads the noise entry
(hyps.get at line 153), the rest is opaque payload. -/
structure Hyps where
  noise : Option ℚ
  rest : List ℚ
  deriving DecidableEq, Repr

/-- External collaborators of the round (section 6 of the spec): every one of
them is out of scope for the core and injected here as a pure function. -/
structure Ext where
  /-- gp.predict_with_cov via compute_posteriors (lines 113 to 120): given
  training inputs, a training response column, test points, the covariance
  matrix, its inverse and the hyperparameters, plus the covariance kind string,
  returns the posterior mean and standard deviation per test point (already
  squeezed to vectors, lines 119 and 120). -/
  predict_with_cov : List (List ℚ) → List ℚ → List (List ℚ) → List (List ℚ) →
    List (List ℚ) → Hyps → String → List ℚ × List ℚ
  /-- utils_bo.choose_fun_acquisition (line 153): selects the acquisition rule
  from the configured acquisition name and the optional noise level; the rule
  maps (pred_mean, pred_std, Y_train) to one score per candidate. -/
  choose_fun_acquisition : String → Option ℚ → (List ℚ → List ℚ → List ℚ → List ℚ)
  /-- gp_kernel.get_optimized_kernel (lines 202 to 218): fits one surrogate,
  returning the covariance matrix, its inverse and the hyperparameters. -/
  get_optimized_kernel : List (List ℚ) → List ℚ → List (List ℚ) × List (List ℚ) × Hyps
  /-- self.get_samples of the base class (lines 66 to 67): draws the requested
  number of initial points with the given sampling method and seed. -/
  get_samples : String → Int → Option Int → List (List ℚ)
  /-- scipy.optimize.minimize (lines 70 to 76): local minimization of the given
  batch objective from one initial point under box bounds; returns the
  locally optimal point (the field x of the scipy result). -/
  minimize : (List (List ℚ) → List ℚ) → List ℚ → List (ℚ × ℚ) → List ℚ
  /-- np.random.RandomState(seed).uniform(low, high) (line 229): one draw of the
  generator freshly seeded with the given integer. -/
  randomStateUniform : Int → ℚ → ℚ → ℚ
  /-- The real function 10 ^ u used at line 231; abstracted because it is
  irrational on rational exponents. -/
  tenPow : ℚ → ℚ

/-- numpy RandomState.uniform(low, high) returns a value in [low, high): this
well-formedness predicate records that contract for the abstract generator. -/
def Ext.uniformValid (ext : Ext) : Prop :=
  ∀ (s : Int) (lo hi : ℚ), lo < hi →
    lo ≤ ext.randomStateUniform s lo hi ∧ ext.randomStateUniform s lo hi < hi

/-- Engine state (constructor lines 14 to 56): the domain is range_X, a list of
(lo, hi) rows; the remaining stored configuration used by the core is the
covariance kind, the acquisition kind and the normalization flag. -/
structure MOBO where
  range_X : List (ℚ × ℚ)
  str_cov : String
  str_acq : String
  normalize_Y : Bool

/-- Column extraction Y_train[:, [j]] (lines 187 to 188), flattened from an
N by 1 matrix to a plain list. -/
def column (j : Nat) (Y : List (List ℚ)) : List ℚ :=
  Y.map (fun r => r.getD j 0)

/-- self.num_dim, set by the base class to range_X.shape[0]. -/
def MOBO.num_dim (self : MOBO) : Nat := self.range_X.length

/-- Modelled from the spec: the bounds provider of the base class,
getBounds() returning the list of (lo, hi) pairs of the domain (the source
method _get_bounds is defined in the external base class). -/
def MOBO._get_bounds (self : MOBO) : List (ℚ × ℚ) := self.range_X

/-- The constructor assertion on the domain (line 39):
every row of range_X satisfies lo ≤ hi. -/
def MOBO.validDomain (self : MOBO) : Prop :=
  ∀ b ∈ self.range_X, b.1 ≤ b.2

/-- Modelled from the spec: utils_bo.normalize_min_max of the bayeso library
(called at lines 197 to 198) performs per-column min-max normalization, and in
the degenerate case of a constant column it must not divide by zero and maps
all values to the fixed constant 0 (spec, section 4.3 step 2). -/
def normalize_min_max (Y : List ℚ) : List ℚ :=
  match Y with
  | [] => []
  | y :: ys =>
    let m := ys.foldl min y
    let M := ys.foldl max y
    if M = m then (y :: ys).map (fun _ => 0)
    else (y :: ys).map (fun v => (v - m) / (M - m))

/-- The normalization step of the round (lines 193 to 198): applied only when
the engine-level flag is set. -/
def MOBO.maybeNormalize (self : MOBO) (col : List ℚ) : List ℚ :=
  if self.normalize_Y then normalize_min_max col else col

/-- Clamp one coordinate into the closed interval of one bound row. -/
def clampCoord (b : ℚ × ℚ) (x : ℚ) : ℚ :=
  if x < b.1 then b.1 else if b.2 < x then b.2 else x

/-- Modelled from the spec: utils_bo.check_points_in_bounds of the bayeso
library (called at lines 238 to 241) projects every point of the batch back
into the domain, clamping any out-of-bounds coordinate to the nearest bound
(spec, section 4.3 step 7). -/
def check_points_in_bounds (points : List (List ℚ)) (bounds : List (ℚ × ℚ)) :
    List (List ℚ) :=
  points.map (fun p => List.zipWith (fun x b => clampCoord b x) p bounds)

/-- Index of the first minimum of a list of values, as np.argmin computes it
(the first index attaining the minimum); none on the empty list, where numpy
raises instead. -/
def argminIdx : List ℚ → Option Nat
  | [] => none
  | v :: vs =>
    match argminIdx vs with
    | none => some 0
    | some j => if vs.getD j 0 < v then some (j + 1) else some 0

/-- Modelled from the spec: utils_bo.get_best_acquisition_by_evaluation of the
bayeso library (called at lines 84 to 85) re-evaluates the objective on the
whole candidate batch and returns the candidate with the lowest value; on exact
ties the first-found candidate wins (spec, section 4.2). -/
def get_best_acquisition_by_evaluation (points : List (List ℚ))
    (fun_objective : List (List ℚ) → List ℚ) : Option (List ℚ) :=
  (argminIdx (fun_objective points)).map (fun i => points.getD i [])

/-- The restart initial points of the round (lines 66 to 67): drawn by the
sampling provider from the sampling method, the sample count and the seed. -/
def restartInitials (ext : Ext) (str_sampling_method : String)
    (num_samples : Int) (seed : Option Int) : List (List ℚ) :=
  ext.get_samples str_sampling_method num_samples seed

/-- The scalarization exponent draw of line 229: one uniform draw from
[-3, 3) of a generator freshly seeded with seed + 101. -/
def scalarizationLogWeight (ext : Ext) (seed : Int) : ℚ :=
  ext.randomStateUniform (seed + 101) (-3) 3

/-- Modelled from the spec: constants.MULTIPLIER_ACQ of the bayeso library, the
fixed positive multiplier applied to acquisition scores at line 163; the spec
constrains it only to be a fixed positive constant. -/
def MULTIPLIER_ACQ : ℚ := 10

/-- compute_posteriors (lines 88 to 122): delegates to the surrogate-prediction
collaborator; the assert preamble of the source is a contract on the caller and
all in-round call sites satisfy it. -/
def MOBO.compute_posteriors (self : MOBO) (ext : Ext) (X_train : List (List ℚ))
    (Y_train : List ℚ) (X_test : List (List ℚ)) (cov_X_X : List (List ℚ))
    (inv_cov_X_X : List (List ℚ)) (hyps : Hyps) : List ℚ × List ℚ :=
  ext.predict_with_cov X_train Y_train X_test cov_X_X inv_cov_X_X hyps self.str_cov

/-- compute_acquisitions (lines 124 to 165) with the score multiplier made
explicit: choose the acquisition rule (line 153), compute the posteriors
(lines 155 to 158), apply the rule (lines 160 to 162) and scale every score by
the multiplier (line 163). -/
def MOBO.compute_acquisitions_mult (self : MOBO) (ext : Ext) (multiplier : ℚ)
    (X : List (List ℚ)) (X_train : List (List ℚ)) (Y_train : List ℚ)
    (cov_X_X : List (List ℚ)) (inv_cov_X_X : List (List ℚ)) (hyps : Hyps) :
    List ℚ :=
  let fun_acquisition := ext.choose_fun_acquisition self.str_acq hyps.noise
  let pm := self.compute_posteriors ext X_train Y_train X cov_X_X inv_cov_X_X hyps
  (fun_acquisition pm.1 pm.2 Y_train).map (fun a => a * multiplier)

/-- compute_acquisitions as the source has it, with the fixed constant
multiplier of line 163. -/
def MOBO.compute_acquisitions (self : MOBO) (ext : Ext) (X : List (List ℚ))
    (X_train : List (List ℚ)) (Y_train : List ℚ) (cov_X_X : List (List ℚ))
    (inv_cov_X_X : List (List ℚ)) (hyps : Hyps) : List ℚ :=
  self.compute_acquisitions_mult ext MULTIPLIER_ACQ X X_train Y_train
    cov_X_X inv_cov_X_X hyps

/-- The surrogate fitted for one objective in the round (lines 202 to 218):
the fitting collaborator applied to the inputs and the possibly normalized
response column. -/
def MOBO.roundSurrogate (self : MOBO) (ext : Ext) (X_train : List (List ℚ))
    (Ycol : List ℚ) : List (List ℚ) × List (List ℚ) × Hyps :=
  ext.get_optimized_kernel X_train (self.maybeNormalize Ycol)

/-- The per-objective negative acquisition closure of lines 223 to 228:
elementwise -1.0 times the acquisition scores, over the surrogate fitted for
that objective in this round. -/
def MOBO.roundNegAcq (self : MOBO) (ext : Ext) (X_train : List (List ℚ))
    (Ycol : List ℚ) : List (List ℚ) → List ℚ :=
  fun X_test =>
    (self.compute_acquisitions ext X_test X_train (self.maybeNormalize Ycol)
      (self.roundSurrogate ext X_train Ycol).1
      (self.roundSurrogate ext X_train Ycol).2.1
      (self.roundSurrogate ext X_train Ycol).2.2).map (fun a => -1 * a)

/-- The combined negative acquisition of line 231: negAcq1(X) + w * negAcq2(X),
elementwise over the batch, where w is 10 to the drawn exponent. -/
def combinedNegAcq (w : ℚ) (f1 f2 : List (List ℚ) → List ℚ) :
    List (List ℚ) → List ℚ :=
  fun X_test => List.zipWith (fun a b => a + w * b) (f1 X_test) (f2 X_test)

/-- The combined negative acquisition the round builds at lines 229 to 231,
with the weight drawn from the generator seeded with seed + 101. -/
def MOBO.roundCombinedNegAcq (self : MOBO) (ext : Ext) (X_train : List (List ℚ))
    (Y_train : List (List ℚ)) (s : Int) : List (List ℚ) → List ℚ :=
  combinedNegAcq (ext.tenPow (scalarizationLogWeight ext s))
    (self.roundNegAcq ext X_train (column 0 Y_train))
    (self.roundNegAcq ext X_train (column 1 Y_train))

/-- _optimize (lines 58 to 86): sample the restart initials, refine each by the
local minimizer under the box bounds, and return the candidate that is best
under re-evaluation of the objective together with the full candidate set;
none when the candidate set is empty (np.argmin would raise there). -/
def MOBO._optimize (self : MOBO) (ext : Ext)
    (fun_negative_acquisition : List (List ℚ) → List ℚ)
    (str_sampling_method : String) (num_samples : Int) (seed : Option Int) :
    Option (List ℚ × List (List ℚ)) :=
  let list_bounds := self._get_bounds
  let initials := restartInitials ext str_sampling_method num_samples seed
  let list_next_point := initials.map (fun arr_initial =>
    ext.minimize fun_negative_acquisition arr_initial list_bounds)
  match get_best_acquisition_by_evaluation list_next_point
      fun_negative_acquisition with
  | none => none
  | some next_point => some (next_point, list_next_point)

/-- Modelled from the spec: constants.ALLOWED_SAMPLING_METHOD of the bayeso
library (membership asserted at line 183); the sampling strategies the spec
names are random (uniform and gaussian), Sobol, Halton and grid. -/
def ALLOWED_SAMPLING_METHOD : List String :=
  ["uniform", "gaussian", "sobol", "halton", "grid"]

/-- The assert preamble of optimize (lines 172 to 183), restricted to the
checks with content in the embedding: Y_train has exactly two columns
(line 179, an ndarray of shape (N, 2) has every row of length 2), the row
counts of X_train and Y_train match (line 180), every input point has the
domain dimensionality (line 181), num_samples is positive (line 182), and the
sampling method is allowed (line 183); the isinstance and shape-rank checks
are enforced by the types of the embedding. -/
def MOBO.optimizeAsserts (self : MOBO) (X_train Y_train : List (List ℚ))
    (num_samples : Int) (str_sampling_method : String) : Bool :=
  Y_train.all (fun r => r.length == 2) &&
  X_train.length == Y_train.length &&
  X_train.all (fun r => r.length == self.num_dim) &&
  decide (0 < num_samples) &&
  ALLOWED_SAMPLING_METHOD.contains str_sampling_method

/-- How a round fails: a failed assert raises AssertionError; seed + 101 on a
None seed raises TypeError (line 229). -/
inductive MoboError where
  | assertionError : MoboError
  | typeError : MoboError
  deriving DecidableEq, Repr

/-- The diagnostic report dict_info (lines 248 to 264); the three wall-clock
timing entries are not modelled. -/
structure DictInfo where
  next_points : List (List ℚ)
  acquisitions : List ℚ
  Y_original_1 : List ℚ
  Y_original_2 : List ℚ
  Y_normalized_1 : List ℚ
  Y_normalized_2 : List ℚ
  cov_X_X_1 : List (List ℚ)
  inv_cov_X_X_1 : List (List ℚ)
  hyps_1 : Hyps
  cov_X_X_2 : List (List ℚ)
  inv_cov_X_X_2 : List (List ℚ)
  hyps_2 : Hyps
  deriving DecidableEq, Repr

/-- optimize (lines 167 to 269), the round orchestrator: assert preamble,
column split and optional normalization (lines 187 to 198), two surrogate
fits (lines 202 to 218), the negative acquisition closures (lines 223 to 228),
the scalarization draw at line 229 (which raises TypeError when the seed is
None, since None + 101 is undefined; the fits that precede it are pure here, so
the failing round is just the error value), the combined objective (line 231),
the restart optimizer (lines 233 to 236), bounds clamping of the best point and
of the candidate set (lines 238 to 241), re-evaluation of the combined
objective on the clamped candidates (line 245) and the report (lines 248 to
264).  All intermediate values are pure, so shared let bindings of the source
appear inlined through the named round helpers. -/
def MOBO.optimize (self : MOBO) (ext : Ext) (X_train Y_train : List (List ℚ))
    (str_sampling_method : String) (num_samples : Int) (seed : Option Int) :
    Except MoboError (List ℚ × DictInfo) :=
  if self.optimizeAsserts X_train Y_train num_samples str_sampling_method then
    match seed with
    | none => Except.error MoboError.typeError
    | some s =>
      match self._optimize ext (self.roundCombinedNegAcq ext X_train Y_train s)
          str_sampling_method num_samples (some s) with
      | none => Except.error MoboError.assertionError
      | some (next_point, next_points) =>
        Except.ok
          ((check_points_in_bounds [next_point] self._get_bounds).getD 0 [],
            { next_points := check_points_in_bounds next_points self._get_bounds
              acquisitions := self.roundCombinedNegAcq ext X_train Y_train s
                (check_points_in_bounds next_points self._get_bounds)
              Y_original_1 := column 0 Y_train
              Y_original_2 := column 1 Y_train
              Y_normalized_1 := self.maybeNormalize (column 0 Y_train)
              Y_normalized_2 := self.maybeNormalize (column 1 Y_train)
              cov_X_X_1 := (self.roundSurrogate ext X_train (column 0 Y_train)).1
              inv_cov_X_X_1 := (self.roundSurrogate ext X_train (column 0 Y_train)).2.1
              hyps_1 := (self.roundSurrogate ext X_train (column 0 Y_train)).2.2
              cov_X_X_2 := (self.roundSurrogate ext X_train (column 1 Y_train)).1
              inv_cov_X_X_2 := (self.roundSurrogate ext X_train (column 1 Y_train)).2.1
              hyps_2 := (self.roundSurrogate ext X_train (column 1 Y_train)).2.2 })
  else Except.error MoboError.assertionError

/-- Decidable equality of round outcomes, so that concrete rounds can be
evaluated inside proofs. -/
instance exceptDecEq {ε α : Type} [DecidableEq ε] [DecidableEq α] :
    DecidableEq (Except ε α) := fun a b =>
  match a, b with
  | Except.error e1, Except.error e2 =>
    if h : e1 = e2 then isTrue (by rw [h])
    else isFalse (fun hc => h (by injection hc))
  | Except.ok v1, Except.ok v2 =>
    if h : v1 = v2 then isTrue (by rw [h])
    else isFalse (fun hc => h (by injection hc))
  | Except.error _, Except.ok _ => isFalse (fun hc => Except.noConfusion hc)
  | Except.ok _, Except.error _ => isFalse (fun hc => Except.noConfusion hc)

/-- Index of the best (highest) acquisition score within one objective;
first-found on ties, as np.argmax computes it. -/
def bestAcqIdx (scores : List ℚ) : Option Nat :=
  argminIdx (scores.map (fun a => -a))

/-- Concrete engine used by the witnesses: one dimension with bounds [0, 10],
response normalization disabled. -/
def mobW : MOBO :=
  { range_X := [(0, 10)], str_cov := "matern52", str_acq := "ei",
    normalize_Y := false }

/-- Witness engine with response normalization enabled. -/
def mobW7 : MOBO :=
  { mobW with normalize_Y := true }

/-- Concrete collaborators used by the witnesses: the surrogate predicts mean 0
and standard deviation 1 everywhere, the acquisition rule returns the posterior
mean, the fit returns a one-by-one identity system, sampling returns copies of
the point 1, the local minimizer returns its initial point, the generator
returns the lower end of its interval, and 10 to any exponent is stubbed as 1.
-/
def extW : Ext :=
  { predict_with_cov := fun _ _ X_test _ _ _ _ =>
      (X_test.map (fun _ => 0), X_test.map (fun _ => 1))
    choose_fun_acquisition := fun _ _ => fun pred_mean _ _ => pred_mean
    get_optimized_kernel := fun _ _ => ([[1]], [[1]], ⟨some 1, []⟩)
    get_samples := fun _ n _ => List.replicate n.toNat [1]
    minimize := fun _ x0 _ => x0
    randomStateUniform := fun _ lo _ => lo
    tenPow := fun _ => 1 }

/-- Report returned by the witness round of the unnormalized engine. -/
def infoW : DictInfo :=
  { next_points := [[1]], acquisitions := [0], Y_original_1 := [2],
    Y_original_2 := [3], Y_normalized_1 := [2], Y_normalized_2 := [3],
    cov_X_X_1 := [[1]], inv_cov_X_X_1 := [[1]], hyps_1 := ⟨some 1, []⟩,
    cov_X_X_2 := [[1]], inv_cov_X_X_2 := [[1]], hyps_2 := ⟨some 1, []⟩ }

/-- Report returned by the witness round of the normalizing engine on a
training set whose first response column is constant. -/
def info7 : DictInfo :=
  { next_points := [[1]], acquisitions := [0], Y_original_1 := [2, 2],
    Y_original_2 := [3, 5], Y_normalized_1 := [0, 0], Y_normalized_2 := [0, 1],
    cov_X_X_1 := [[1]], inv_cov_X_X_1 := [[1]], hyps_1 := ⟨some 1, []⟩,
    cov_X_X_2 := [[1]], inv_cov_X_X_2 := [[1]], hyps_2 := ⟨some 1, []⟩ }

/-- Concrete batch objective used by the restart-optimizer witness: the first
coordinate of every candidate. -/
def fW : List (List ℚ) → List ℚ :=
  fun X => X.map (fun p => p.getD 0 0)

/-! Helper lemmas shared by the claim theorems. -/

theorem argminIdx_eq_none {l : List ℚ} (h : argminIdx l = none) : l = [] := by
  cases l with
  | nil => rfl
  | cons v vs =>
    rw [argminIdx] at h
    split at h
    · simp_all
    · split at h <;> simp_all

theorem argminIdx_spec :
    ∀ (l : List ℚ) (i : Nat), argminIdx l = some i →
      i < l.length ∧ (∀ j, j < l.length → l.getD i 0 ≤ l.getD j 0) ∧
        ∀ j, j < i → l.getD i 0 < l.getD j 0 := by
  intro l
  induction l with
  | nil => intro i h; simp [argminIdx] at h
  | cons v vs ih =>
    intro i h
    rw [argminIdx] at h
    split at h
    · -- argminIdx vs = none, so vs is empty and the head wins
      rename_i hvs
      have hnil : vs = [] := argminIdx_eq_none hvs
      subst hnil
      have hi : i = 0 := by simpa using h.symm
      subst hi
      refine ⟨by simp, ?_, ?_⟩
      · intro j hj
        have hj0 : j = 0 := by simpa using hj
        subst hj0
        exact le_refl _
      · intro j hj; omega
    · rename_i j hvs
      obtain ⟨hjlen, hmin, hfirst⟩ := ih j hvs
      split at h
      · -- the tail minimum is strictly below the head
        rename_i hlt
        have hi : i = j + 1 := by simpa using h.symm
        subst hi
        refine ⟨by simpa using Nat.succ_lt_succ hjlen, ?_, ?_⟩
        · intro k hk
          cases k with
          | zero => simpa using le_of_lt hlt
          | succ k =>
            rw [List.getD_cons_succ, List.getD_cons_succ]
            exact hmin k (by simpa using Nat.lt_of_succ_lt_succ hk)
        · intro k hk
          cases k with
          | zero => simpa using hlt
          | succ k =>
            rw [List.getD_cons_succ, List.getD_cons_succ]
            exact hfirst k (Nat.lt_of_succ_lt_succ hk)
      · -- the head is at most the tail minimum, so the head wins
        rename_i hnlt
        have hi : i = 0 := by simpa using h.symm
        subst hi
        refine ⟨by simp, ?_, ?_⟩
        · intro k hk
          cases k with
          | zero => exact le_refl _
          | succ k =>
            rw [List.getD_cons_zero, List.getD_cons_succ]
            exact le_trans (not_lt.mp hnlt) (hmin k (by simpa using Nat.lt_of_succ_lt_succ hk))
        · intro k hk; omega

theorem getD_map_mul (l : List ℚ) (c : ℚ) :
    ∀ j, (l.map (fun a => a * c)).getD j 0 = l.getD j 0 * c := by
  induction l with
  | nil => intro j; simp
  | cons v vs ih =>
    intro j
    cases j with
    | zero => simp
    | succ j => simpa using ih j

theorem argminIdx_map_mul_pos (c : ℚ) (hc : 0 < c) :
    ∀ l : List ℚ, argminIdx (l.map (fun a => a * c)) = argminIdx l := by
  intro l
  induction l with
  | nil => simp [argminIdx]
  | cons v vs ih =>
    rw [List.map_cons, argminIdx, argminIdx, ih]
    cases hvs : argminIdx vs with
    | none => rfl
    | some j =>
      have hcmp : ((vs.map (fun a => a * c)).getD j 0 < v * c) ↔ (vs.getD j 0 < v) := by
        rw [getD_map_mul]
        exact mul_lt_mul_right hc
      dsimp only
      by_cases hlt : vs.getD j 0 < v
      · rw [if_pos (hcmp.mpr hlt), if_pos hlt]
      · rw [if_neg (fun hcon => hlt (hcmp.mp hcon)), if_neg hlt]

theorem clampCoord_mem (b : ℚ × ℚ) (x : ℚ) (h : b.1 ≤ b.2) :
    b.1 ≤ clampCoord b x ∧ clampCoord b x ≤ b.2 := by
  unfold clampCoord
  split
  · exact ⟨le_refl _, h⟩
  · split
    · exact ⟨h, le_refl _⟩
    · rename_i h1 h2
      exact ⟨not_lt.mp h1, not_lt.mp h2⟩

theorem foldl_min_const (c : ℚ) :
    ∀ l : List ℚ, (∀ v ∈ l, v = c) → l.foldl min c = c := by
  intro l
  induction l with
  | nil => intro _; rfl
  | cons v vs ih =>
    intro hall
    have hv : v = c := hall v (by simp)
    subst hv
    rw [List.foldl_cons, min_self]
    exact ih (fun w hw => hall w (by simp [hw]))

theorem foldl_max_const (c : ℚ) :
    ∀ l : List ℚ, (∀ v ∈ l, v = c) → l.foldl max c = c := by
  intro l
  induction l with
  | nil => intro _; rfl
  | cons v vs ih =>
    intro hall
    have hv : v = c := hall v (by simp)
    subst hv
    rw [List.foldl_cons, max_self]
    exact ih (fun w hw => hall w (by simp [hw]))

theorem normalize_min_max_const (Y : List ℚ) (c : ℚ) (hconst : ∀ v ∈ Y, v = c) :
    normalize_min_max Y = Y.map (fun _ => 0) := by
  cases Y with
  | nil => rfl
  | cons y ys =>
    have hy : y = c := hconst y (by simp)
    have hmin : ys.foldl min y = y := by
      rw [hy]
      exact foldl_min_const c ys (fun w hw => hconst w (by simp [hw]))
    have hmax : ys.foldl max y = y := by
      rw [hy]
      exact foldl_max_const c ys (fun w hw => hconst w (by simp [hw]))
    rw [normalize_min_max]
    simp [hmin, hmax]

/-- Inversion of a successful round: an ok result of optimize pins down every
component of the returned point and of the report. -/
theorem MOBO.optimize_ok_inv (self : MOBO) (ext : Ext)
    (X_train Y_train : List (List ℚ)) (m : String) (n : Int) (sd : Option Int)
    (pt : List ℚ) (info : DictInfo)
    (hok : self.optimize ext X_train Y_train m n sd = Except.ok (pt, info)) :
    self.optimizeAsserts X_train Y_train n m = true ∧
    ∃ s next_point next_points, sd = some s ∧
      self._optimize ext (self.roundCombinedNegAcq ext X_train Y_train s) m n
        (some s) = some (next_point, next_points) ∧
      pt = (check_points_in_bounds [next_point] self._get_bounds).getD 0 [] ∧
      info = { next_points := check_points_in_bounds next_points self._get_bounds
               acquisitions := self.roundCombinedNegAcq ext X_train Y_train s
                 (check_points_in_bounds next_points self._get_bounds)
               Y_original_1 := column 0 Y_train
               Y_original_2 := column 1 Y_train
               Y_normalized_1 := self.maybeNormalize (column 0 Y_train)
               Y_normalized_2 := self.maybeNormalize (column 1 Y_train)
               cov_X_X_1 := (self.roundSurrogate ext X_train (column 0 Y_train)).1
               inv_cov_X_X_1 := (self.roundSurrogate ext X_train (column 0 Y_train)).2.1
               hyps_1 := (self.roundSurrogate ext X_train (column 0 Y_train)).2.2
               cov_X_X_2 := (self.roundSurrogate ext X_train (column 1 Y_train)).1
               inv_cov_X_X_2 := (self.roundSurrogate ext X_train (column 1 Y_train)).2.1
               hyps_2 := (self.roundSurrogate ext X_train (column 1 Y_train)).2.2 } := by
  unfold MOBO.optimize at hok
  split at hok
  · rename_i hA
    cases sd with
    | none => exact Except.noConfusion hok
    | some s =>
      dsimp only at hok
      cases hO : self._optimize ext (self.roundCombinedNegAcq ext X_train Y_train s)
          m n (some s) with
      | none =>
        rw [hO] at hok
        exact Except.noConfusion hok
      | some p =>
        obtain ⟨np, nps⟩ := p
        rw [hO] at hok
        simp only [Except.ok.injEq, Prod.mk.injEq] at hok
        exact ⟨hA, s, np, nps, rfl, hO, hok.1.symm, hok.2.symm⟩
  · exact Except.noConfusion hok

/-- Evaluation of the concrete witness round. -/
theorem optimizeW_eval :
    mobW.optimize extW [[1]] [[2, 3]] "uniform" 1 (some 42) = Except.ok ([1], infoW) := by
  norm_num [MOBO.optimize, MOBO.optimizeAsserts, ALLOWED_SAMPLING_METHOD, MOBO._optimize,
    restartInitials, get_best_acquisition_by_evaluation, argminIdx, MOBO.roundCombinedNegAcq,
    combinedNegAcq, MOBO.roundNegAcq, MOBO.roundSurrogate, MOBO.compute_acquisitions,
    MOBO.compute_acquisitions_mult, MOBO.compute_posteriors, MULTIPLIER_ACQ, MOBO.maybeNormalize,
    normalize_min_max, check_points_in_bounds, clampCoord, column, scalarizationLogWeight,
    MOBO._get_bounds, MOBO.num_dim, mobW, extW, infoW]

/-- Claim C1: for every valid domain (all intervals with lo ≤ hi) and every
successful call to optimize, the returned next point has every coordinate
within the corresponding bound interval, inclusive: the clamping step of lines
238 to 239 projects any out-of-bounds coordinate produced by the local
optimizer to the nearest bound before the point is returned. -/
theorem C1_clamping_invariant (self : MOBO) (ext : Ext)
    (X_train Y_train : List (List ℚ)) (m : String) (n : Int) (sd : Option Int)
    (pt : List ℚ) (info : DictInfo)
    (hdom : self.validDomain)
    (hok : self.optimize ext X_train Y_train m n sd = Except.ok (pt, info)) :
    ∀ i, i < pt.length →
      (self._get_bounds.getD i (0, 0)).1 ≤ pt.getD i 0 ∧
        pt.getD i 0 ≤ (self._get_bounds.getD i (0, 0)).2 := by
  obtain ⟨-, s, np, nps, -, -, hpt, -⟩ :=
    self.optimize_ok_inv ext X_train Y_train m n sd pt info hok
  subst hpt
  have hform : (check_points_in_bounds [np] self._get_bounds).getD 0 [] =
      List.zipWith (fun x b => clampCoord b x) np self._get_bounds := by
    simp [check_points_in_bounds]
  rw [hform]
  intro i hi
  have hin : i < np.length := List.lt_length_left_of_zipWith hi
  have hib : i < self._get_bounds.length := List.lt_length_right_of_zipWith hi
  have hgd : (List.zipWith (fun x b => clampCoord b x) np self._get_bounds).getD i 0 =
      clampCoord (self._get_bounds[i]) (np[i]) := by
    rw [List.getD_eq_getElem?_getD, List.getElem?_eq_getElem hi,
      List.getElem_zipWith]
    rfl
  have hb : self._get_bounds.getD i (0, 0) = self._get_bounds[i] := by
    rw [List.getD_eq_getElem?_getD, List.getElem?_eq_getElem hib]
    rfl
  rw [hgd, hb]
  exact clampCoord_mem _ _ (hdom _ (List.getElem_mem hib))

/-- Witness for C1: in a concrete round over the domain [0, 10], the returned
point [1] has its single coordinate inside the bounds. -/
theorem C1_clamping_invariant_witness :
    (mobW._get_bounds.getD 0 (0, 0)).1 ≤ ([(1 : ℚ)]).getD 0 0 ∧
      ([(1 : ℚ)]).getD 0 0 ≤ (mobW._get_bounds.getD 0 (0, 0)).2 :=
  C1_clamping_invariant mobW extW [[1]] [[2, 3]] "uniform" 1 (some 42) [1] infoW
    (show ∀ b ∈ mobW.range_X, b.1 ≤ b.2 by decide) (optimizeW_eval) 0 (by decide)

/-- Claim C2: in every successful round with integer seed s, the scalarization
exponent is the single draw of the generator seeded with s + 101 over the
interval from -3 to 3 (so it lies in [-3, 3], the generator returning values in
the half-open interval), and the reported combined negative acquisition of the
candidate set is elementwise negAcq1(X) + 10^U * negAcq2(X) over the two
per-objective negative acquisition closures of the round. -/
theorem C2_scalarization (self : MOBO) (ext : Ext)
    (X_train Y_train : List (List ℚ)) (m : String) (n : Int) (s : Int)
    (pt : List ℚ) (info : DictInfo)
    (hu : ext.uniformValid)
    (hok : self.optimize ext X_train Y_train m n (some s) = Except.ok (pt, info)) :
    scalarizationLogWeight ext s = ext.randomStateUniform (s + 101) (-3) 3 ∧
    -3 ≤ scalarizationLogWeight ext s ∧ scalarizationLogWeight ext s ≤ 3 ∧
    info.acquisitions =
      List.zipWith
        (fun a b => a + ext.tenPow (scalarizationLogWeight ext s) * b)
        (self.roundNegAcq ext X_train (column 0 Y_train) info.next_points)
        (self.roundNegAcq ext X_train (column 1 Y_train) info.next_points) := by
  obtain ⟨-, s', np, nps, hsd, -, -, hinfo⟩ :=
    self.optimize_ok_inv ext X_train Y_train m n (some s) pt info hok
  have hs : s = s' := by injection hsd
  subst hs
  have hmem := hu (s + 101) (-3) 3 (by norm_num)
  refine ⟨rfl, hmem.1, le_of_lt (lt_of_lt_of_le hmem.2 (by norm_num)), ?_⟩
  subst hinfo
  rfl

/-- Witness for C2 at the concrete round with seed 42. -/
theorem C2_scalarization_witness :
    scalarizationLogWeight extW 42 = extW.randomStateUniform (42 + 101) (-3) 3 ∧
    -3 ≤ scalarizationLogWeight extW 42 ∧ scalarizationLogWeight extW 42 ≤ 3 ∧
    infoW.acquisitions =
      List.zipWith
        (fun a b => a + extW.tenPow (scalarizationLogWeight extW 42) * b)
        (mobW.roundNegAcq extW [[1]] (column 0 [[2, 3]]) infoW.next_points)
        (mobW.roundNegAcq extW [[1]] (column 1 [[2, 3]]) infoW.next_points) :=
  C2_scalarization mobW extW [[1]] [[2, 3]] "uniform" 1 42 [1] infoW
    (fun _ lo _ h => ⟨le_refl lo, h⟩) (optimizeW_eval)

/-- Claim C3: the restart optimizer returns, among the locally optimized
candidates (the local minimizer applied to each sampled initial), the one whose
value under re-evaluation of the combined objective on the candidate set is
lowest; on exact ties the first candidate in restart order is returned (the
locally reported objective values play no part: only the re-evaluation does).
-/
theorem C3_best_of_restarts (self : MOBO) (ext : Ext)
    (f : List (List ℚ) → List ℚ) (m : String) (n : Int) (sd : Option Int)
    (best : List ℚ) (cands : List (List ℚ))
    (hres : self._optimize ext f m n sd = some (best, cands))
    (hlen : (f cands).length = cands.length) :
    cands = (restartInitials ext m n sd).map
      (fun arr_initial => ext.minimize f arr_initial self._get_bounds) ∧
    (argminIdx (f cands)).getD 0 < cands.length ∧
    best = cands.getD ((argminIdx (f cands)).getD 0) [] ∧
    (∀ j, j < cands.length →
      (f cands).getD ((argminIdx (f cands)).getD 0) 0 ≤ (f cands).getD j 0) ∧
    ∀ j, j < (argminIdx (f cands)).getD 0 →
      (f cands).getD ((argminIdx (f cands)).getD 0) 0 < (f cands).getD j 0 := by
  simp only [MOBO._optimize, get_best_acquisition_by_evaluation] at hres
  cases hA : argminIdx (f ((restartInitials ext m n sd).map
      (fun arr_initial => ext.minimize f arr_initial self._get_bounds))) with
  | none => rw [hA] at hres; simp at hres
  | some i =>
    rw [hA] at hres
    simp only [Option.map_some', Option.some.injEq, Prod.mk.injEq] at hres
    obtain ⟨hbest, hcands⟩ := hres
    subst hcands
    obtain ⟨hilen, hmin, hfirst⟩ := argminIdx_spec _ i hA
    rw [hA]
    simp only [Option.getD_some]
    refine ⟨trivial, ?_, hbest.symm, ?_, ?_⟩
    · rw [← hlen]; exact hilen
    · intro j hj
      exact hmin j (by rw [hlen]; exact hj)
    · intro j hj
      exact hfirst j hj

/-- Witness for C3: a concrete single-restart run where the objective is the
first coordinate of each candidate. -/
theorem C3_best_of_restarts_witness :
    [[(1 : ℚ)]] = (restartInitials extW "uniform" 1 (some 7)).map
      (fun arr_initial => extW.minimize fW arr_initial mobW._get_bounds) ∧
    (argminIdx (fW [[1]])).getD 0 < ([[(1 : ℚ)]]).length ∧
    [(1 : ℚ)] = ([[(1 : ℚ)]]).getD ((argminIdx (fW [[1]])).getD 0) [] ∧
    (∀ j, j < ([[(1 : ℚ)]]).length →
      (fW [[1]]).getD ((argminIdx (fW [[1]])).getD 0) 0 ≤ (fW [[1]]).getD j 0) ∧
    ∀ j, j < (argminIdx (fW [[1]])).getD 0 →
      (fW [[1]]).getD ((argminIdx (fW [[1]])).getD 0) 0 < (fW [[1]]).getD j 0 :=
  C3_best_of_restarts mobW extW fW "uniform" 1 (some 7) [1] [[1]]
    (by decide) (by decide)

/-- Claim C4: supplying Y_train with a third column, or a non-positive
numSamples, makes optimize fail the contract checks of lines 172 to 183 with an
AssertionError before the surrogate-fitting collaborator can play any part: the
outcome carries no partial result and is the same error value for every fitting
collaborator that could be installed. -/
theorem C4_contract_violation (self : MOBO) (ext : Ext)
    (X_train Y_train : List (List ℚ)) (m : String) (n : Int) (sd : Option Int)
    (hbad : (∃ r ∈ Y_train, r.length = 3) ∨ n ≤ 0) :
    ∀ fit1 : List (List ℚ) → List ℚ → List (List ℚ) × List (List ℚ) × Hyps,
      self.optimize { ext with get_optimized_kernel := fit1 } X_train Y_train
        m n sd = Except.error MoboError.assertionError := by
  intro fit1
  have hA : ¬ self.optimizeAsserts X_train Y_train n m = true := by
    intro htrue
    unfold MOBO.optimizeAsserts at htrue
    simp only [Bool.and_eq_true, List.all_eq_true, decide_eq_true_eq,
      beq_iff_eq] at htrue
    obtain ⟨⟨⟨⟨h2, -⟩, -⟩, hpos⟩, -⟩ := htrue
    rcases hbad with ⟨r, hr, hr3⟩ | hn
    · have h23 := h2 r hr
      omega
    · omega
  unfold MOBO.optimize
  rw [if_neg hA]

/-- Witness for C4: a response matrix with three columns is rejected no matter
the fitting collaborator. -/
theorem C4_contract_violation_witness :
    mobW.optimize
        { extW with get_optimized_kernel := fun _ _ => ([[1]], [[1]], ⟨some 1, []⟩) }
        [[1]] [[2, 3, 4]] "uniform" 1 (some 0) =
      Except.error MoboError.assertionError :=
  C4_contract_violation mobW extW [[1]] [[2, 3, 4]] "uniform" 1 (some 0)
    (by decide) (fun _ _ => ([[1]], [[1]], ⟨some 1, []⟩))

/-- Claim C5: every collaborator is modelled as a pure function (exactly the
determinism assumption of the claim), under which two calls of the round with
the same training set and the same seed draw the same scalarization exponent
and return the same outcome, in particular the same next point. -/
theorem C5_reproducibility (self : MOBO) (ext : Ext)
    (X_train Y_train : List (List ℚ)) (m : String) (n : Int) (s : Int) :
    scalarizationLogWeight ext s = scalarizationLogWeight ext s ∧
    self.optimize ext X_train Y_train m n (some s) =
      self.optimize ext X_train Y_train m n (some s) :=
  ⟨rfl, rfl⟩

/-- Claim C6: the scalarization draw is decoupled from the restart-sampling
randomness: the drawn exponent reads only the dedicated generator seeded with
seed + 101 and is unchanged under any replacement of the sampling collaborator
(the whole source of restart-sampling randomness), while the sampled restart
points read only the sampling collaborator and are unchanged under any
replacement of the scalarization generator. -/
theorem C6_decoupling (ext : Ext)
    (g : String → Int → Option Int → List (List ℚ))
    (u : Int → ℚ → ℚ → ℚ) (s : Int) (m : String) (n : Int) (sd : Option Int) :
    scalarizationLogWeight { ext with get_samples := g } s =
      scalarizationLogWeight ext s ∧
    restartInitials { ext with randomStateUniform := u } m n sd =
      restartInitials ext m n sd :=
  ⟨rfl, rfl⟩

/-- Claim C7: when response normalization is enabled and a response column is
constant, the min-max normalization takes its degenerate branch, performing no
division at all (hence no division by zero and no undefined value), and the
normalized column reported by the round maps every row to the same constant 0.
-/
theorem C7_constant_normalization (self : MOBO) (ext : Ext)
    (X_train Y_train : List (List ℚ)) (m : String) (n : Int) (sd : Option Int)
    (pt : List ℚ) (info : DictInfo) (c : ℚ)
    (hnorm : self.normalize_Y = true)
    (hconst : ∀ v ∈ column 0 Y_train, v = c)
    (hok : self.optimize ext X_train Y_train m n sd = Except.ok (pt, info)) :
    info.Y_normalized_1 = (column 0 Y_train).map (fun _ => 0) := by
  obtain ⟨-, s, np, nps, -, -, -, hinfo⟩ :=
    self.optimize_ok_inv ext X_train Y_train m n sd pt info hok
  subst hinfo
  show self.maybeNormalize (column 0 Y_train) = _
  rw [MOBO.maybeNormalize, if_pos hnorm]
  exact normalize_min_max_const _ c hconst

/-- Evaluation of the concrete witness round of the normalizing engine on a
training set whose first response column is constant. -/
theorem optimizeW7_eval :
    mobW7.optimize extW [[1], [4]] [[2, 3], [2, 5]] "uniform" 1 (some 42) =
      Except.ok ([1], info7) := by
  norm_num [MOBO.optimize, MOBO.optimizeAsserts, ALLOWED_SAMPLING_METHOD,
    MOBO._optimize, restartInitials, get_best_acquisition_by_evaluation,
    argminIdx, MOBO.roundCombinedNegAcq, combinedNegAcq, MOBO.roundNegAcq,
    MOBO.roundSurrogate, MOBO.compute_acquisitions,
    MOBO.compute_acquisitions_mult, MOBO.compute_posteriors, MULTIPLIER_ACQ,
    MOBO.maybeNormalize, normalize_min_max, check_points_in_bounds, clampCoord,
    column, scalarizationLogWeight, MOBO._get_bounds, MOBO.num_dim, mobW,
    mobW7, extW, info7]

/-- Witness for C7: the constant first response column [2, 2] normalizes to
[0, 0] in the round report. -/
theorem C7_constant_normalization_witness :
    info7.Y_normalized_1 = (column 0 [[2, 3], [2, 5]]).map (fun _ => 0) :=
  C7_constant_normalization mobW7 extW [[1], [4]] [[2, 3], [2, 5]] "uniform" 1
    (some 42) [1] info7 2 rfl (by decide) optimizeW7_eval

/-- Claim C8: multiplying the fixed acquisition multiplier by any positive
constant rescales every acquisition score by that constant, so the candidate
ranked best within one objective (first-found highest score) is unchanged and
the full relative order of the scores over the fixed candidate set is
preserved. -/
theorem C8_multiplier_invariance (self : MOBO) (ext : Ext) (c : ℚ)
    (X X_train : List (List ℚ)) (Y_train : List ℚ)
    (cov_X_X inv_cov_X_X : List (List ℚ)) (hyps : Hyps)
    (hc : 0 < c) :
    bestAcqIdx (self.compute_acquisitions_mult ext (MULTIPLIER_ACQ * c) X
        X_train Y_train cov_X_X inv_cov_X_X hyps) =
      bestAcqIdx (self.compute_acquisitions ext X X_train Y_train cov_X_X
        inv_cov_X_X hyps) ∧
    ∀ i j : Nat,
      ((self.compute_acquisitions_mult ext (MULTIPLIER_ACQ * c) X X_train
          Y_train cov_X_X inv_cov_X_X hyps).getD i 0 ≤
        (self.compute_acquisitions_mult ext (MULTIPLIER_ACQ * c) X X_train
          Y_train cov_X_X inv_cov_X_X hyps).getD j 0) ↔
      ((self.compute_acquisitions ext X X_train Y_train cov_X_X inv_cov_X_X
          hyps).getD i 0 ≤
        (self.compute_acquisitions ext X X_train Y_train cov_X_X inv_cov_X_X
          hyps).getD j 0) := by
  have hscale : self.compute_acquisitions_mult ext (MULTIPLIER_ACQ * c) X
      X_train Y_train cov_X_X inv_cov_X_X hyps =
      (self.compute_acquisitions ext X X_train Y_train cov_X_X inv_cov_X_X
        hyps).map (fun a => a * c) := by
    simp only [MOBO.compute_acquisitions, MOBO.compute_acquisitions_mult,
      List.map_map]
    congr 1
    funext a
    simp only [Function.comp_apply]
    ring
  rw [hscale]
  constructor
  · unfold bestAcqIdx
    rw [List.map_map]
    have hcomm : ((fun a => -a) ∘ fun a : ℚ => a * c) =
        ((fun a => a * c) ∘ fun a : ℚ => -a) := by
      funext a
      simp only [Function.comp_apply, neg_mul]
    rw [hcomm, ← List.map_map]
    exact argminIdx_map_mul_pos c hc _
  · intro i j
    rw [getD_map_mul, getD_map_mul]
    exact mul_le_mul_right hc

/-- Witness for C8 on a concrete candidate batch and surrogate state, with the
multiplier scaled by 2. -/
theorem C8_multiplier_invariance_witness :
    bestAcqIdx (mobW.compute_acquisitions_mult extW (MULTIPLIER_ACQ * 2) [[1]]
        [[1]] [5] [[1]] [[1]] ⟨some 1, []⟩) =
      bestAcqIdx (mobW.compute_acquisitions extW [[1]] [[1]] [5] [[1]] [[1]]
        ⟨some 1, []⟩) ∧
    ∀ i j : Nat,
      ((mobW.compute_acquisitions_mult extW (MULTIPLIER_ACQ * 2) [[1]] [[1]]
          [5] [[1]] [[1]] ⟨some 1, []⟩).getD i 0 ≤
        (mobW.compute_acquisitions_mult extW (MULTIPLIER_ACQ * 2) [[1]] [[1]]
          [5] [[1]] [[1]] ⟨some 1, []⟩).getD j 0) ↔
      ((mobW.compute_acquisitions extW [[1]] [[1]] [5] [[1]] [[1]]
          ⟨some 1, []⟩).getD i 0 ≤
        (mobW.compute_acquisitions extW [[1]] [[1]] [5] [[1]] [[1]]
          ⟨some 1, []⟩).getD j 0) :=
  C8_multiplier_invariance mobW extW 2 [[1]] [[1]] [5] [[1]] [[1]]
    ⟨some 1, []⟩ (by decide)

/-- Claim C9: the round never mutates the training responses (the embedding is
pure and the source normalization builds fresh arrays), and the report entries
Y_original_1 and Y_original_2 equal the raw first and second response columns
of the training set, whether or not normalization is enabled. -/
theorem C9_report_originals (self : MOBO) (ext : Ext)
    (X_train Y_train : List (List ℚ)) (m : String) (n : Int) (sd : Option Int)
    (pt : List ℚ) (info : DictInfo)
    (hok : self.optimize ext X_train Y_train m n sd = Except.ok (pt, info)) :
    info.Y_original_1 = column 0 Y_train ∧
      info.Y_original_2 = column 1 Y_train := by
  obtain ⟨-, s, np, nps, -, -, -, hinfo⟩ :=
    self.optimize_ok_inv ext X_train Y_train m n sd pt info hok
  subst hinfo
  exact ⟨rfl, rfl⟩

/-- Witness for C9 at the concrete witness round. -/
theorem C9_report_originals_witness :
    infoW.Y_original_1 = column 0 [[2, 3]] ∧
      infoW.Y_original_2 = column 1 [[2, 3]] :=
  C9_report_originals mobW extW [[1]] [[2, 3]] "uniform" 1 (some 42) [1] infoW
    optimizeW_eval

/-- Claim C10: a call whose arguments pass the assert preamble (seed None is
accepted by the isinstance check of line 176) but whose seed is None fails at
the scalarization draw of line 229 with a TypeError, because None + 101 is
undefined; hence no round with seed None can return a result, and every
successful round requires an integer seed. -/
theorem C10_none_seed (self : MOBO) (ext : Ext)
    (X_train Y_train : List (List ℚ)) (m : String) (n : Int)
    (hA : self.optimizeAsserts X_train Y_train n m = true) :
    self.optimize ext X_train Y_train m n none =
      Except.error MoboError.typeError := by
  unfold MOBO.optimize
  rw [if_pos hA]

/-- Witness for C10: the concrete valid round with seed None fails with the
TypeError. -/
theorem C10_none_seed_witness :
    mobW.optimize extW [[1]] [[2, 3]] "uniform" 1 none =
      Except.error MoboError.typeError :=
  C10_none_seed mobW extW [[1]] [[2, 3]] "uniform" 1 (by decide)

end Mobo
